import Mathlib

/-!
Shallow embedding of `ConsumeFromTopicOperator` from
`kafka_provider/operators/consume_from_topic.py`.

The operator's constructor validates `commit_cadence` against the set
`{"never", "end_of_batch", "end_of_operator"}`, coerces `max_messages` with
`max_messages or True` (so `None` and `0` both become the Python bool `True`),
logs a warning when `max_batch_size > max_messages`, and normalizes the
cadence `"never"` to Python `None` after validation.

`execute` opens a consumer, then runs
`while messages_left > 0:` polling up to a computed batch size, subtracting
the batch length from `messages_left`, applying the user callable to each
message in order, committing after the batch when the cadence is
`"end_of_batch"`, breaking on an empty batch; after the loop it commits once
when the cadence is truthy, and closes the consumer.

Python's `bool` is a subtype of `int`: `True > 0` is `True` and
`True - n` is the int `1 - n`.  The embedding models the
bool-or-int value `messages_left` explicitly (`PyNum`), and models the
observable interactions of a run (polls, per-message applications, commits,
close) as an event trace.  The user callable may fail (`Except`), in which
case the run aborts with the error and the remaining events never happen.
-/

namespace ConsumeFromTopic

/-- A Python numeric value that is either a `bool` or an `int`.  The source
sets `self.max_messages = max_messages or True`, so the message budget is
either the boolean `True` (the "unbounded" sentinel) or an integer.  Python
treats `True` as `1` in arithmetic and comparisons. -/
inductive PyNum where
  | pybool : Bool → PyNum
  | pyint : Int → PyNum
  deriving DecidableEq, Repr

/-- The integer value of a Python bool-or-int (`True == 1`, `False == 0`). -/
def PyNum.toInt : PyNum → Int
  | .pybool b => if b then 1 else 0
  | .pyint n => n

@[simp] theorem PyNum.toInt_pyint (n : Int) : (PyNum.pyint n).toInt = n := rfl

@[simp] theorem PyNum.toInt_pybool (b : Bool) :
    (PyNum.pybool b).toInt = if b then 1 else 0 := rfl

/-- `isinstance(v, bool)`. -/
def PyNum.isBool : PyNum → Bool
  | .pybool _ => true
  | .pyint _ => false

/-- Python truthiness of a bool-or-int (`bool(v)`). -/
def PyNum.isTruthy : PyNum → Bool
  | .pybool b => b
  | .pyint n => n != 0

/-- `VALID_COMMIT_CADENCE = {"never", "end_of_batch", "end_of_operator"}`. -/
def VALID_COMMIT_CADENCE : List String := ["never", "end_of_batch", "end_of_operator"]

/-- Python membership test `self.commit_cadence in VALID_COMMIT_CADENCE`,
where `commit_cadence : Optional[str]` (`none` models Python `None`, which is
not a member of the set of strings). -/
def ccValid : Option String → Bool
  | none => false
  | some s => decide (s ∈ VALID_COMMIT_CADENCE)

/-- Python truthiness of an `Optional[str]`: `None` is falsy and a string is
truthy unless empty (`if self.commit_cadence:`). -/
def ccTruthy : Option String → Bool
  | none => false
  | some s => s ≠ ""

/-- The constructor arguments of `ConsumeFromTopicOperator` that the
consumption loop reads.  `topics`, the apply-function reference and its bound
arguments, the connection id, the consumer config and `poll_timeout` are
passed through to external collaborators and are not modelled. -/
structure RawConfig where
  commit_cadence : Option String
  max_messages : Option Int
  max_batch_size : Int
  deriving DecidableEq, Repr

/-- The operator state produced by a successful `__init__`. -/
structure Operator where
  commit_cadence : Option String
  max_messages : PyNum
  max_batch_size : Int
  /-- whether the `max_batch_size > max_messages` warning was logged -/
  warned : Bool
  deriving DecidableEq, Repr

/-- The `AirflowException` raised by `__init__`:
`f"commit_cadence must be one of {VALID_COMMIT_CADENCE}. Got {self.commit_cadence}"`,
modelled structurally as the offending value together with the allowed set. -/
inductive InitError where
  | invalidCommitCadence : Option String → List String → InitError
  deriving DecidableEq, Repr

/-- `ConsumeFromTopicOperator.__init__`.  In source order: the fields are
assigned (`self.max_messages = max_messages or True`; Python `None` and `0`
are both falsy), then an invalid `commit_cadence` raises, then the
`max_batch_size > max_messages` warning is logged
(`if self.max_messages and self.max_batch_size > self.max_messages`), and
finally the cadence `"never"` is replaced by `None`. -/
def initOperator (cfg : RawConfig) : Except InitError Operator :=
  let mm : PyNum :=
    match cfg.max_messages with
    | none => PyNum.pybool true
    | some n => if n = 0 then PyNum.pybool true else PyNum.pyint n
  if ccValid cfg.commit_cadence then
    Except.ok
      { commit_cadence :=
          if cfg.commit_cadence = some "never" then none else cfg.commit_cadence
        max_messages := mm
        max_batch_size := cfg.max_batch_size
        warned := mm.isTruthy && decide (mm.toInt < cfg.max_batch_size) }
  else
    Except.error (InitError.invalidCommitCadence cfg.commit_cadence VALID_COMMIT_CADENCE)

/-- An observable interaction of one run.  `M` is the opaque message type. -/
inductive Event (M : Type) where
  /-- `KafkaConsumerHook(...).get_consumer()`: the consumer connection opens. -/
  | openEv : Event M
  /-- `consumer.consume(num_messages=requested, ...)` returned this batch. -/
  | pollEv : Int → List M → Event M
  /-- `apply_callable(m)` returned normally for message `m`. -/
  | applyEv : M → Event M
  /-- `consumer.commit()`. -/
  | commitEv : Event M
  /-- `consumer.close()`. -/
  | closeEv : Event M
  deriving DecidableEq, Repr

/-- The outcome of `execute`: the event trace, the final
`messages_processed`, and the error when the apply callable raised. -/
structure ExecOut (M E : Type) where
  trace : List (Event M)
  processed : Int
  err : Option E
  deriving DecidableEq, Repr

/-- `for m in msgs: apply_callable(m)` — apply the callable to each message
in order, stopping at the first failure.  Returns the events of the
successful applications and the error, if any. -/
def applyBatch (f : M → Except E Unit) : List M → List (Event M) × Option E
  | [] => ([], none)
  | m :: ms =>
    match f m with
    | Except.ok _ =>
      let rest := applyBatch f ms
      (Event.applyEv m :: rest.1, rest.2)
    | Except.error e => ([], some e)

/-- The requested batch size:
`batch_size = self.max_batch_size if messages_left > self.max_batch_size else messages_left`
when `messages_left` is not a bool, and `self.max_batch_size` when it is. -/
def requestSize (messages_left : PyNum) (max_batch_size : Int) : Int :=
  if messages_left.isBool then max_batch_size
  else if max_batch_size < messages_left.toInt then max_batch_size
  else messages_left.toInt

/-- The `while messages_left > 0:` loop of `execute`.  `consume k n` is the
batch the consumer returns for the `k`-th poll when `n` messages are
requested; `f` is the bound apply callable.  Each iteration polls, performs
`messages_left -= len(msgs)` (which turns the bool sentinel into an int,
since Python `True - n == 1 - n`) and `messages_processed += len(msgs)`,
breaks if the batch is empty, applies `f` to each message in order, and
commits when the cadence is `"end_of_batch"`.

The recursion is fueled; `execute` supplies fuel that is provably sufficient
(`consumeLoop_fuel_sufficient`): the guard needs `messages_left.toInt > 0`
and every non-breaking iteration strictly decreases `messages_left.toInt`,
so the loop always stops within `messages_left.toInt + 1` iterations. -/
def consumeLoop (op : Operator) (consume : Nat → Int → List M)
    (f : M → Except E Unit) :
    Nat → Nat → PyNum → Int → ExecOut M E
  | 0, _, _, processed => ⟨[], processed, none⟩
  | fuel + 1, k, messages_left, processed =>
    if 0 < messages_left.toInt then
      let batch_size := requestSize messages_left op.max_batch_size
      let msgs := consume k batch_size
      let messages_left' := PyNum.pyint (messages_left.toInt - msgs.length)
      let processed' := processed + msgs.length
      if msgs.isEmpty then
        ⟨[Event.pollEv batch_size msgs], processed', none⟩
      else
        let ap := applyBatch f msgs
        if ap.2.isSome then
          ⟨Event.pollEv batch_size msgs :: ap.1, processed', ap.2⟩
        else
          let commits : List (Event M) :=
            if op.commit_cadence = some "end_of_batch" then [Event.commitEv] else []
          let rest := consumeLoop op consume f fuel (k + 1) messages_left' processed'
          ⟨Event.pollEv batch_size msgs :: (ap.1 ++ commits ++ rest.trace),
           rest.processed, rest.err⟩
    else ⟨[], processed, none⟩

/-- `ConsumeFromTopicOperator.execute`: open the consumer, run the loop from
`messages_left = self.max_messages` and `messages_processed = 0`, then — when
the loop ended without the callable raising — commit once if the cadence is
truthy and close the consumer.  When the callable raised, the exception
propagates: no further commit and no close. -/
def execute (op : Operator) (consume : Nat → Int → List M)
    (f : M → Except E Unit) : ExecOut M E :=
  let out := consumeLoop op consume f (op.max_messages.toInt.toNat + 1) 0
    op.max_messages 0
  if out.err.isSome then
    ⟨Event.openEv :: out.trace, out.processed, out.err⟩
  else
    let drain : List (Event M) :=
      if ccTruthy op.commit_cadence then [Event.commitEv] else []
    ⟨Event.openEv :: (out.trace ++ drain ++ [Event.closeEv]), out.processed, none⟩

/-- A whole run: construct the operator, then execute it.  Construction
failure means `execute` never runs (the scheduler surfaces the exception). -/
def runOperator (cfg : RawConfig) (consume : Nat → Int → List M)
    (f : M → Except E Unit) : Except InitError (ExecOut M E) :=
  match initOperator cfg with
  | Except.error e => Except.error e
  | Except.ok op => Except.ok (execute op consume f)

/-- The events of a whole run: none when construction failed. -/
def runEvents (r : Except InitError (ExecOut M E)) : List (Event M) :=
  match r with
  | Except.error _ => []
  | Except.ok out => out.trace

/-- Is this event a commit? -/
def isCommit : Event M → Bool
  | Event.commitEv => true
  | _ => false

/-- Is this event a poll? -/
def isPoll : Event M → Bool
  | Event.pollEv _ _ => true
  | _ => false

/-- Is this event a poll that returned a non-empty batch? -/
def isNonEmptyPoll : Event M → Bool
  | Event.pollEv _ (_ :: _) => true
  | _ => false

/-- Number of `commit()` calls in a trace. -/
def commitCount (t : List (Event M)) : Nat := t.countP (fun e => isCommit e)

/-- Number of polls in a trace. -/
def pollCount (t : List (Event M)) : Nat := t.countP (fun e => isPoll e)

/-- Number of polls that returned a non-empty batch. -/
def nonEmptyPollCount (t : List (Event M)) : Nat :=
  t.countP (fun e => isNonEmptyPoll e)

/-- The requested size of each poll, in order. -/
def pollRequests (t : List (Event M)) : List Int :=
  t.filterMap fun e =>
    match e with
    | Event.pollEv r _ => some r
    | _ => none

/-! ### Case-by-case unfolding lemmas for `consumeLoop` -/

/-- Out of fuel: return current state (provably unreachable for the fuel
`execute` supplies, see `consumeLoop_fuel_sufficient`). -/
theorem consumeLoop_zero (op : Operator) (c : Nat → Int → List M)
    (f : M → Except E Unit) (k : Nat) (L : PyNum) (p : Int) :
    consumeLoop op c f 0 k L p = ⟨[], p, none⟩ := rfl

/-- The `while` guard fails: the loop body never runs. -/
theorem consumeLoop_stop (op : Operator) (c : Nat → Int → List M)
    (f : M → Except E Unit) (fuel k : Nat) (L : PyNum) (p : Int)
    (h : ¬ 0 < L.toInt) :
    consumeLoop op c f (fuel + 1) k L p = ⟨[], p, none⟩ := by
  simp only [consumeLoop, if_neg h]

/-- The poll returns an empty batch: log and break. -/
theorem consumeLoop_empty (op : Operator) (c : Nat → Int → List M)
    (f : M → Except E Unit) (fuel k : Nat) (L : PyNum) (p : Int)
    (h : 0 < L.toInt) (he : c k (requestSize L op.max_batch_size) = []) :
    consumeLoop op c f (fuel + 1) k L p =
      ⟨[Event.pollEv (requestSize L op.max_batch_size) []], p, none⟩ := by
  simp [consumeLoop, if_pos h, he]

/-- The apply callable raises on some message of a non-empty batch: the
exception aborts the loop. -/
theorem consumeLoop_fail (op : Operator) (c : Nat → Int → List M)
    (f : M → Except E Unit) (fuel k : Nat) (L : PyNum) (p : Int) (e : E)
    (h : 0 < L.toInt) (hne : c k (requestSize L op.max_batch_size) ≠ [])
    (hap : (applyBatch f (c k (requestSize L op.max_batch_size))).2 = some e) :
    consumeLoop op c f (fuel + 1) k L p =
      ⟨Event.pollEv (requestSize L op.max_batch_size)
          (c k (requestSize L op.max_batch_size)) ::
        (applyBatch f (c k (requestSize L op.max_batch_size))).1,
       p + (c k (requestSize L op.max_batch_size)).length, some e⟩ := by
  have he : (c k (requestSize L op.max_batch_size)).isEmpty = false := by
    simpa [List.isEmpty_iff] using hne
  simp [consumeLoop, if_pos h, he, hap]

/-- A non-empty batch is fully applied: maybe commit, then iterate. -/
theorem consumeLoop_ok (op : Operator) (c : Nat → Int → List M)
    (f : M → Except E Unit) (fuel k : Nat) (L : PyNum) (p : Int)
    (h : 0 < L.toInt) (hne : c k (requestSize L op.max_batch_size) ≠ [])
    (hap : (applyBatch f (c k (requestSize L op.max_batch_size))).2 = none) :
    consumeLoop op c f (fuel + 1) k L p =
      ⟨Event.pollEv (requestSize L op.max_batch_size)
          (c k (requestSize L op.max_batch_size)) ::
        ((applyBatch f (c k (requestSize L op.max_batch_size))).1 ++
          (if op.commit_cadence = some "end_of_batch" then [Event.commitEv] else []) ++
          (consumeLoop op c f fuel (k + 1)
            (PyNum.pyint (L.toInt - (c k (requestSize L op.max_batch_size)).length))
            (p + (c k (requestSize L op.max_batch_size)).length)).trace),
       (consumeLoop op c f fuel (k + 1)
         (PyNum.pyint (L.toInt - (c k (requestSize L op.max_batch_size)).length))
         (p + (c k (requestSize L op.max_batch_size)).length)).processed,
       (consumeLoop op c f fuel (k + 1)
         (PyNum.pyint (L.toInt - (c k (requestSize L op.max_batch_size)).length))
         (p + (c k (requestSize L op.max_batch_size)).length)).err⟩ := by
  have he : (c k (requestSize L op.max_batch_size)).isEmpty = false := by
    simpa [List.isEmpty_iff] using hne
  simp [consumeLoop, if_pos h, he, hap]

/-! ### Facts about `applyBatch` -/

/-- When the callable succeeds on every message of the batch, every message
yields an application event, in batch order, and no error is reported. -/
theorem applyBatch_all_ok (f : M → Except E Unit) (ms : List M)
    (hf : ∀ m ∈ ms, f m = Except.ok ()) :
    applyBatch f ms = (ms.map Event.applyEv, none) := by
  induction ms with
  | nil => rfl
  | cons m ms ih =>
    have hm : f m = Except.ok () := hf m (List.mem_cons_self m ms)
    have ih' := ih fun x hx => hf x (List.mem_cons_of_mem m hx)
    simp [applyBatch, hm, ih']

/-- The events produced while applying a batch are application events only. -/
theorem applyBatch_fst_shape (f : M → Except E Unit) (ms : List M) :
    ∃ l : List M, (applyBatch f ms).1 = l.map Event.applyEv := by
  induction ms with
  | nil => exact ⟨[], rfl⟩
  | cons m ms ih =>
    obtain ⟨l, hl⟩ := ih
    cases hfm : f m with
    | ok u =>
      cases u
      exact ⟨m :: l, by simp [applyBatch, hfm, hl]⟩
    | error e => exact ⟨[], by simp [applyBatch, hfm]⟩

/-- Application events satisfy no event predicate that is false on
`applyEv`. -/
theorem countP_map_applyEv (p : Event M → Bool) (l : List M)
    (h : ∀ m : M, p (Event.applyEv m) = false) :
    (l.map Event.applyEv).countP p = 0 := by
  induction l with
  | nil => rfl
  | cons m l ih => simp [List.countP_cons, h, ih]

/-- Application events are not polls: they contribute no requests. -/
theorem pollRequests_map_applyEv (l : List M) :
    pollRequests (l.map Event.applyEv : List (Event M)) = [] := by
  induction l with
  | nil => rfl
  | cons m l ih => simp [pollRequests] at ih ⊢

/-- A poll event is a non-empty poll exactly when its batch is non-empty. -/
theorem isNonEmptyPoll_pollEv (r : Int) (ms : List M) :
    isNonEmptyPoll (Event.pollEv r ms) = !ms.isEmpty := by
  cases ms <;> rfl

/-! ### The fuel never runs out -/

/-- When the budget is not positive the loop body never runs, with or
without fuel. -/
theorem consumeLoop_notpos (op : Operator) (c : Nat → Int → List M)
    (f : M → Except E Unit) (fuel k : Nat) (L : PyNum) (p : Int)
    (h : ¬ 0 < L.toInt) :
    consumeLoop op c f fuel k L p = ⟨[], p, none⟩ := by
  cases fuel with
  | zero => exact consumeLoop_zero op c f k L p
  | succ n => exact consumeLoop_stop op c f n k L p h

/-- Any fuel above `messages_left.toInt.toNat` yields the same result: each
non-breaking iteration strictly decreases the integer value of
`messages_left`, so the fueled recursion faithfully embeds the source's
unfueled `while` loop. -/
theorem consumeLoop_fuel_sufficient (op : Operator) (c : Nat → Int → List M)
    (f : M → Except E Unit) :
    ∀ fuel₁ fuel₂ k : Nat, ∀ L : PyNum, ∀ p : Int,
      L.toInt.toNat < fuel₁ → L.toInt.toNat < fuel₂ →
      consumeLoop op c f fuel₁ k L p = consumeLoop op c f fuel₂ k L p := by
  intro fuel₁
  induction fuel₁ with
  | zero => intro fuel₂ k L p h1 h2; omega
  | succ n ih =>
    intro fuel₂ k L p h1 h2
    match fuel₂ with
    | 0 => omega
    | m + 1 =>
      by_cases hg : 0 < L.toInt
      · by_cases hne : c k (requestSize L op.max_batch_size) = []
        · rw [consumeLoop_empty op c f n k L p hg hne,
            consumeLoop_empty op c f m k L p hg hne]
        · cases hap : (applyBatch f (c k (requestSize L op.max_batch_size))).2 with
          | none =>
            rw [consumeLoop_ok op c f n k L p hg hne hap,
              consumeLoop_ok op c f m k L p hg hne hap]
            have hlen : 0 < (c k (requestSize L op.max_batch_size)).length :=
              List.length_pos.mpr hne
            have h1' :
                (PyNum.pyint
                  (L.toInt - (c k (requestSize L op.max_batch_size)).length)).toInt.toNat < n := by
              rw [PyNum.toInt_pyint]
              omega
            have h2' :
                (PyNum.pyint
                  (L.toInt - (c k (requestSize L op.max_batch_size)).length)).toInt.toNat < m := by
              rw [PyNum.toInt_pyint]
              omega
            rw [ih m (k + 1)
              (PyNum.pyint (L.toInt - (c k (requestSize L op.max_batch_size)).length))
              (p + (c k (requestSize L op.max_batch_size)).length) h1' h2']
          | some e =>
            rw [consumeLoop_fail op c f n k L p e hg hne hap,
              consumeLoop_fail op c f m k L p e hg hne hap]
      · rw [consumeLoop_stop op c f n k L p hg, consumeLoop_stop op c f m k L p hg]

/-! ### Simp lemmas for event predicates and counters -/

@[simp] theorem isCommit_openEv : isCommit (Event.openEv : Event M) = false := rfl

@[simp] theorem isCommit_pollEv (r : Int) (ms : List M) :
    isCommit (Event.pollEv r ms) = false := rfl

@[simp] theorem isCommit_applyEv (m : M) : isCommit (Event.applyEv m) = false := rfl

@[simp] theorem isCommit_commitEv : isCommit (Event.commitEv : Event M) = true := rfl

@[simp] theorem isCommit_closeEv : isCommit (Event.closeEv : Event M) = false := rfl

@[simp] theorem isPoll_openEv : isPoll (Event.openEv : Event M) = false := rfl

@[simp] theorem isPoll_pollEv (r : Int) (ms : List M) :
    isPoll (Event.pollEv r ms) = true := rfl

@[simp] theorem isPoll_applyEv (m : M) : isPoll (Event.applyEv m) = false := rfl

@[simp] theorem isPoll_commitEv : isPoll (Event.commitEv : Event M) = false := rfl

@[simp] theorem isPoll_closeEv : isPoll (Event.closeEv : Event M) = false := rfl

@[simp] theorem isNonEmptyPoll_openEv :
    isNonEmptyPoll (Event.openEv : Event M) = false := rfl

@[simp] theorem isNonEmptyPoll_pollEv_nil (r : Int) :
    isNonEmptyPoll (Event.pollEv r ([] : List M)) = false := rfl

@[simp] theorem isNonEmptyPoll_pollEv_cons (r : Int) (m : M) (ms : List M) :
    isNonEmptyPoll (Event.pollEv r (m :: ms)) = true := rfl

@[simp] theorem isNonEmptyPoll_applyEv (m : M) :
    isNonEmptyPoll (Event.applyEv m) = false := rfl

@[simp] theorem isNonEmptyPoll_commitEv :
    isNonEmptyPoll (Event.commitEv : Event M) = false := rfl

@[simp] theorem isNonEmptyPoll_closeEv :
    isNonEmptyPoll (Event.closeEv : Event M) = false := rfl

@[simp] theorem commitCount_nil : commitCount ([] : List (Event M)) = 0 := rfl

@[simp] theorem commitCount_cons (e : Event M) (t : List (Event M)) :
    commitCount (e :: t) = commitCount t + (if isCommit e then 1 else 0) := by
  simp [commitCount, List.countP_cons]

@[simp] theorem commitCount_append (s t : List (Event M)) :
    commitCount (s ++ t) = commitCount s + commitCount t := by
  simp [commitCount, List.countP_append]

@[simp] theorem pollCount_nil : pollCount ([] : List (Event M)) = 0 := rfl

@[simp] theorem pollCount_cons (e : Event M) (t : List (Event M)) :
    pollCount (e :: t) = pollCount t + (if isPoll e then 1 else 0) := by
  simp [pollCount, List.countP_cons]

@[simp] theorem pollCount_append (s t : List (Event M)) :
    pollCount (s ++ t) = pollCount s + pollCount t := by
  simp [pollCount, List.countP_append]

@[simp] theorem nonEmptyPollCount_nil :
    nonEmptyPollCount ([] : List (Event M)) = 0 := rfl

@[simp] theorem nonEmptyPollCount_cons (e : Event M) (t : List (Event M)) :
    nonEmptyPollCount (e :: t)
      = nonEmptyPollCount t + (if isNonEmptyPoll e then 1 else 0) := by
  simp [nonEmptyPollCount, List.countP_cons]

@[simp] theorem nonEmptyPollCount_append (s t : List (Event M)) :
    nonEmptyPollCount (s ++ t) = nonEmptyPollCount s + nonEmptyPollCount t := by
  simp [nonEmptyPollCount, List.countP_append]

@[simp] theorem commitCount_map_applyEv (l : List M) :
    commitCount (l.map Event.applyEv : List (Event M)) = 0 :=
  countP_map_applyEv _ l (fun _ => rfl)

@[simp] theorem pollCount_map_applyEv (l : List M) :
    pollCount (l.map Event.applyEv : List (Event M)) = 0 :=
  countP_map_applyEv _ l (fun _ => rfl)

@[simp] theorem nonEmptyPollCount_map_applyEv (l : List M) :
    nonEmptyPollCount (l.map Event.applyEv : List (Event M)) = 0 :=
  countP_map_applyEv _ l (fun _ => rfl)

@[simp] theorem pollRequests_nil : pollRequests ([] : List (Event M)) = [] := rfl

@[simp] theorem pollRequests_cons_openEv (t : List (Event M)) :
    pollRequests (Event.openEv :: t) = pollRequests t := rfl

@[simp] theorem pollRequests_cons_pollEv (r : Int) (ms : List M) (t : List (Event M)) :
    pollRequests (Event.pollEv r ms :: t) = r :: pollRequests t := rfl

@[simp] theorem pollRequests_cons_applyEv (m : M) (t : List (Event M)) :
    pollRequests (Event.applyEv m :: t) = pollRequests t := rfl

@[simp] theorem pollRequests_cons_commitEv (t : List (Event M)) :
    pollRequests (Event.commitEv :: t) = pollRequests t := rfl

@[simp] theorem pollRequests_cons_closeEv (t : List (Event M)) :
    pollRequests (Event.closeEv :: t) = pollRequests t := rfl

@[simp] theorem pollRequests_append (s t : List (Event M)) :
    pollRequests (s ++ t) = pollRequests s ++ pollRequests t := by
  simp [pollRequests]

/-! ### Loop invariants -/

/-- The loop itself never closes the consumer; `close()` happens only after
the loop, in `execute`. -/
theorem consumeLoop_no_close (op : Operator) (c : Nat → Int → List M)
    (f : M → Except E Unit) :
    ∀ fuel k : Nat, ∀ L : PyNum, ∀ p : Int,
      Event.closeEv ∉ (consumeLoop op c f fuel k L p).trace := by
  intro fuel
  induction fuel with
  | zero => intro k L p; rw [consumeLoop_zero]; simp
  | succ n ih =>
    intro k L p
    by_cases hg : 0 < L.toInt
    · by_cases hne : c k (requestSize L op.max_batch_size) = []
      · rw [consumeLoop_empty op c f n k L p hg hne]; simp
      · obtain ⟨l, hl⟩ := applyBatch_fst_shape f (c k (requestSize L op.max_batch_size))
        cases hap : (applyBatch f (c k (requestSize L op.max_batch_size))).2 with
        | some e =>
          rw [consumeLoop_fail op c f n k L p e hg hne hap, hl]
          simp
        | none =>
          rw [consumeLoop_ok op c f n k L p hg hne hap, hl]
          have hrest := ih (k + 1)
            (PyNum.pyint (L.toInt - (c k (requestSize L op.max_batch_size)).length))
            (p + (c k (requestSize L op.max_batch_size)).length)
          by_cases hcc : op.commit_cadence = some "end_of_batch" <;>
            simp [hcc, hrest]
    · rw [consumeLoop_stop op c f n k L p hg]; simp

/-- When the cadence is not `"end_of_batch"` the loop performs no commit. -/
theorem consumeLoop_no_commit (op : Operator) (c : Nat → Int → List M)
    (f : M → Except E Unit) (hcc : op.commit_cadence ≠ some "end_of_batch") :
    ∀ fuel k : Nat, ∀ L : PyNum, ∀ p : Int,
      commitCount (consumeLoop op c f fuel k L p).trace = 0 := by
  intro fuel
  induction fuel with
  | zero => intro k L p; rw [consumeLoop_zero]; rfl
  | succ n ih =>
    intro k L p
    by_cases hg : 0 < L.toInt
    · by_cases hne : c k (requestSize L op.max_batch_size) = []
      · rw [consumeLoop_empty op c f n k L p hg hne]
        simp [commitCount, isCommit]
      · obtain ⟨l, hl⟩ := applyBatch_fst_shape f (c k (requestSize L op.max_batch_size))
        have hll : (l.map Event.applyEv).countP (fun e => isCommit e) = 0 :=
          countP_map_applyEv _ l (fun m => rfl)
        cases hap : (applyBatch f (c k (requestSize L op.max_batch_size))).2 with
        | some e =>
          rw [consumeLoop_fail op c f n k L p e hg hne hap, hl]
          simp [commitCount, List.countP_cons, isCommit, hll]
        | none =>
          rw [consumeLoop_ok op c f n k L p hg hne hap, hl]
          have hrest := ih (k + 1)
            (PyNum.pyint (L.toInt - (c k (requestSize L op.max_batch_size)).length))
            (p + (c k (requestSize L op.max_batch_size)).length)
          simp only [commitCount] at hrest
          simp only [if_neg hcc, commitCount, List.countP_cons, List.countP_append,
            List.countP_nil, hll, hrest]
          simp only [show isCommit (Event.pollEv (requestSize L op.max_batch_size)
            (c k (requestSize L op.max_batch_size))) = false from rfl]
          simp
    · rw [consumeLoop_stop op c f n k L p hg]; rfl

/-- With `"end_of_batch"` cadence, a loop run in which the callable never
raised performs exactly one commit per non-empty batch (the drain commit is
`execute`'s, not the loop's). -/
theorem consumeLoop_commits_eob (op : Operator) (c : Nat → Int → List M)
    (f : M → Except E Unit) (hcc : op.commit_cadence = some "end_of_batch") :
    ∀ fuel k : Nat, ∀ L : PyNum, ∀ p : Int,
      (consumeLoop op c f fuel k L p).err = none →
      commitCount (consumeLoop op c f fuel k L p).trace
        = nonEmptyPollCount (consumeLoop op c f fuel k L p).trace := by
  intro fuel
  induction fuel with
  | zero => intro k L p _; rw [consumeLoop_zero]; rfl
  | succ n ih =>
    intro k L p herr
    by_cases hg : 0 < L.toInt
    · by_cases hne : c k (requestSize L op.max_batch_size) = []
      · rw [consumeLoop_empty op c f n k L p hg hne]
        rfl
      · obtain ⟨l, hl⟩ := applyBatch_fst_shape f (c k (requestSize L op.max_batch_size))
        have hpne : isNonEmptyPoll (Event.pollEv (requestSize L op.max_batch_size)
            (c k (requestSize L op.max_batch_size))) = true := by
          rw [isNonEmptyPoll_pollEv]
          simp [hne]
        cases hap : (applyBatch f (c k (requestSize L op.max_batch_size))).2 with
        | some e =>
          rw [consumeLoop_fail op c f n k L p e hg hne hap] at herr
          simp at herr
        | none =>
          rw [consumeLoop_ok op c f n k L p hg hne hap] at herr ⊢
          have hrest := ih (k + 1)
            (PyNum.pyint (L.toInt - (c k (requestSize L op.max_batch_size)).length))
            (p + (c k (requestSize L op.max_batch_size)).length) herr
          rw [hl, if_pos hcc]
          simp [hpne, hrest]
    · rw [consumeLoop_stop op c f n k L p hg]; rfl

/-- With `"end_of_batch"` cadence, a loop run aborted by the callable has
committed every batch except the failing one, and every poll of such a run
returned a non-empty batch (an empty batch would have ended the run
normally). -/
theorem consumeLoop_commits_eob_fail (op : Operator) (c : Nat → Int → List M)
    (f : M → Except E Unit) (hcc : op.commit_cadence = some "end_of_batch") :
    ∀ fuel k : Nat, ∀ L : PyNum, ∀ p : Int, ∀ e : E,
      (consumeLoop op c f fuel k L p).err = some e →
      commitCount (consumeLoop op c f fuel k L p).trace + 1
          = pollCount (consumeLoop op c f fuel k L p).trace ∧
        nonEmptyPollCount (consumeLoop op c f fuel k L p).trace
          = pollCount (consumeLoop op c f fuel k L p).trace := by
  intro fuel
  induction fuel with
  | zero =>
    intro k L p e herr
    rw [consumeLoop_zero] at herr
    simp at herr
  | succ n ih =>
    intro k L p e herr
    by_cases hg : 0 < L.toInt
    · by_cases hne : c k (requestSize L op.max_batch_size) = []
      · rw [consumeLoop_empty op c f n k L p hg hne] at herr
        simp at herr
      · obtain ⟨l, hl⟩ := applyBatch_fst_shape f (c k (requestSize L op.max_batch_size))
        have hpne : isNonEmptyPoll (Event.pollEv (requestSize L op.max_batch_size)
            (c k (requestSize L op.max_batch_size))) = true := by
          rw [isNonEmptyPoll_pollEv]
          simp [hne]
        cases hap : (applyBatch f (c k (requestSize L op.max_batch_size))).2 with
        | some e' =>
          rw [consumeLoop_fail op c f n k L p e' hg hne hap]
          rw [hl]
          simp [hpne]
        | none =>
          rw [consumeLoop_ok op c f n k L p hg hne hap] at herr ⊢
          obtain ⟨h1, h2⟩ := ih (k + 1)
            (PyNum.pyint (L.toInt - (c k (requestSize L op.max_batch_size)).length))
            (p + (c k (requestSize L op.max_batch_size)).length) e herr
          rw [hl, if_pos hcc]
          simp [hpne]
          refine ⟨?_, ?_⟩ <;> omega
    · rw [consumeLoop_stop op c f n k L p hg] at herr
      simp at herr

/-- The batch sizes the spec expects a bounded run to request: `B` while
more than `B` messages remain, then the exact remainder. -/
def expectedRequests (L B : Int) : List Int :=
  if _h : 0 < B ∧ 0 < L then
    if B < L then B :: expectedRequests (L - B) B else [L]
  else []
termination_by L.toNat
decreasing_by
  simp_wf
  omega

/-- For a bounded budget the requested size is `min` of batch size and
budget, stated as two bounds. -/
theorem requestSize_pyint_le (L B : Int) :
    requestSize (PyNum.pyint L) B ≤ B ∧ requestSize (PyNum.pyint L) B ≤ L := by
  simp only [requestSize, PyNum.isBool, PyNum.toInt_pyint]
  split
  · simp_all
  · split <;> omega

/-- The conditional in-loop commit block contributes no poll requests. -/
theorem pollRequests_ite_commit (P : Prop) [Decidable P] :
    pollRequests (if P then [Event.commitEv] else ([] : List (Event M))) = [] := by
  split <;> rfl

/-- The conditional in-loop commit block contributes its one commit exactly
when the condition holds. -/
theorem commitCount_ite_commit (P : Prop) [Decidable P] :
    commitCount (if P then [Event.commitEv] else ([] : List (Event M)))
      = if P then 1 else 0 := by
  split <;> rfl

/-- With a consumer that always returns exactly as many messages as
requested and a callable that never raises, a bounded loop run requests `B`
messages per poll until at most `B` remain, then exactly the remainder, and
processes exactly its initial budget without error. -/
theorem consumeLoop_exact (op : Operator) (c : Nat → Int → List M)
    (f : M → Except E Unit) (hB : 1 ≤ op.max_batch_size)
    (hex : ∀ k : Nat, ∀ n : Int, 0 ≤ n → (c k n).length = n.toNat)
    (hf : ∀ m : M, f m = Except.ok ()) :
    ∀ fuel k : Nat, ∀ L p : Int, 0 < L → L.toNat < fuel →
      pollRequests (consumeLoop op c f fuel k (PyNum.pyint L) p).trace
          = expectedRequests L op.max_batch_size ∧
        (consumeLoop op c f fuel k (PyNum.pyint L) p).processed = p + L ∧
        (consumeLoop op c f fuel k (PyNum.pyint L) p).err = none := by
  intro fuel
  induction fuel with
  | zero => intro k L p hL hfuel; omega
  | succ n ih =>
    intro k L p hL hfuel
    have hg : 0 < (PyNum.pyint L).toInt := by rw [PyNum.toInt_pyint]; exact hL
    have hbs : requestSize (PyNum.pyint L) op.max_batch_size
        = if op.max_batch_size < L then op.max_batch_size else L := by
      simp [requestSize, PyNum.isBool]
    have hbspos : 0 < requestSize (PyNum.pyint L) op.max_batch_size := by
      rw [hbs]; split <;> omega
    have hlen : (c k (requestSize (PyNum.pyint L) op.max_batch_size)).length
        = (requestSize (PyNum.pyint L) op.max_batch_size).toNat :=
      hex _ _ (le_of_lt hbspos)
    have hne : c k (requestSize (PyNum.pyint L) op.max_batch_size) ≠ [] := by
      intro hnil
      rw [hnil] at hlen
      simp at hlen
      omega
    have hab := applyBatch_all_ok f
      (c k (requestSize (PyNum.pyint L) op.max_batch_size)) (fun m _ => hf m)
    have hap : (applyBatch f
        (c k (requestSize (PyNum.pyint L) op.max_batch_size))).2 = none := by
      rw [hab]
    rw [consumeLoop_ok op c f n k (PyNum.pyint L) p hg hne hap]
    have hfst : (applyBatch f
        (c k (requestSize (PyNum.pyint L) op.max_batch_size))).1
        = (c k (requestSize (PyNum.pyint L) op.max_batch_size)).map Event.applyEv := by
      rw [hab]
    by_cases hcase : op.max_batch_size < L
    · have hbs' : requestSize (PyNum.pyint L) op.max_batch_size
          = op.max_batch_size := by rw [hbs, if_pos hcase]
      have hlen' : ((c k (requestSize (PyNum.pyint L) op.max_batch_size)).length : Int)
          = op.max_batch_size := by
        rw [hlen, hbs']
        omega
      have harg : PyNum.pyint ((PyNum.pyint L).toInt
            - (c k (requestSize (PyNum.pyint L) op.max_batch_size)).length)
          = PyNum.pyint (L - op.max_batch_size) := by
        rw [PyNum.toInt_pyint, hlen']
      obtain ⟨ih1, ih2, ih3⟩ := ih (k + 1) (L - op.max_batch_size)
        (p + (c k (requestSize (PyNum.pyint L) op.max_batch_size)).length)
        (by omega) (by omega)
      rw [harg]
      refine ⟨?_, ?_, ?_⟩
      · rw [hfst]
        simp only [pollRequests_cons_pollEv, pollRequests_append,
          pollRequests_map_applyEv, pollRequests_ite_commit, List.nil_append]
        rw [ih1, hbs']
        conv_rhs => rw [expectedRequests]
        rw [dif_pos ⟨by omega, hL⟩, if_pos hcase]
      · simp only [ih2]
        rw [hlen']
        ring
      · exact ih3
    · have hbs' : requestSize (PyNum.pyint L) op.max_batch_size = L := by
        rw [hbs, if_neg hcase]
      have hlen' : ((c k (requestSize (PyNum.pyint L) op.max_batch_size)).length : Int)
          = L := by
        rw [hlen, hbs']
        omega
      have hrest : consumeLoop op c f n (k + 1)
          (PyNum.pyint ((PyNum.pyint L).toInt
            - (c k (requestSize (PyNum.pyint L) op.max_batch_size)).length))
          (p + (c k (requestSize (PyNum.pyint L) op.max_batch_size)).length)
          = ⟨[], p + (c k (requestSize (PyNum.pyint L) op.max_batch_size)).length,
              none⟩ := by
        apply consumeLoop_notpos
        rw [PyNum.toInt_pyint, PyNum.toInt_pyint, hlen']
        omega
      rw [hrest]
      refine ⟨?_, ?_, ?_⟩
      · rw [hfst]
        simp only [pollRequests_cons_pollEv, pollRequests_append,
          pollRequests_map_applyEv, pollRequests_ite_commit, List.nil_append,
          pollRequests_nil, List.append_nil]
        rw [hbs']
        rw [expectedRequests, dif_pos ⟨by omega, hL⟩, if_neg hcase]
      · simp only []
        rw [hlen']
      · rfl

/-- In a bounded run every requested batch size is at most `max_batch_size`
and at most the remaining budget. -/
theorem consumeLoop_requests_le (op : Operator) (c : Nat → Int → List M)
    (f : M → Except E Unit) :
    ∀ fuel k : Nat, ∀ L p : Int, ∀ r : Int,
      r ∈ pollRequests (consumeLoop op c f fuel k (PyNum.pyint L) p).trace →
      r ≤ op.max_batch_size ∧ r ≤ L := by
  intro fuel
  induction fuel with
  | zero => intro k L p r hr; rw [consumeLoop_zero] at hr; simp at hr
  | succ n ih =>
    intro k L p r hr
    by_cases hg : 0 < (PyNum.pyint L).toInt
    · by_cases hne : c k (requestSize (PyNum.pyint L) op.max_batch_size) = []
      · rw [consumeLoop_empty op c f n k (PyNum.pyint L) p hg hne] at hr
        simp at hr
        subst hr
        exact requestSize_pyint_le L op.max_batch_size
      · obtain ⟨l, hl⟩ := applyBatch_fst_shape f
          (c k (requestSize (PyNum.pyint L) op.max_batch_size))
        cases hap : (applyBatch f
            (c k (requestSize (PyNum.pyint L) op.max_batch_size))).2 with
        | some e =>
          rw [consumeLoop_fail op c f n k (PyNum.pyint L) p e hg hne hap, hl] at hr
          simp [pollRequests_map_applyEv] at hr
          subst hr
          exact requestSize_pyint_le L op.max_batch_size
        | none =>
          rw [consumeLoop_ok op c f n k (PyNum.pyint L) p hg hne hap, hl] at hr
          simp only [pollRequests_cons_pollEv, pollRequests_append,
            pollRequests_map_applyEv, pollRequests_ite_commit, List.nil_append,
            List.mem_cons] at hr
          cases hr with
          | inl hr =>
            subst hr
            exact requestSize_pyint_le L op.max_batch_size
          | inr hr =>
            rw [show (PyNum.pyint L).toInt = L from rfl] at hr
            have := ih (k + 1)
              (L - (c k (requestSize (PyNum.pyint L) op.max_batch_size)).length)
              (p + (c k (requestSize (PyNum.pyint L) op.max_batch_size)).length) r hr
            refine ⟨this.1, ?_⟩
            have hlen : (0 : Int)
                ≤ (c k (requestSize (PyNum.pyint L) op.max_batch_size)).length := by
              positivity
            omega
    · rw [consumeLoop_stop op c f n k (PyNum.pyint L) p hg] at hr
      simp at hr

/-! ### Unfolding lemmas for `execute` -/

/-- `execute` when the loop finished without the callable raising: drain
commit (when the cadence is truthy) and close. -/
theorem execute_ok (op : Operator) (c : Nat → Int → List M)
    (f : M → Except E Unit)
    (h : (consumeLoop op c f (op.max_messages.toInt.toNat + 1) 0
      op.max_messages 0).err = none) :
    execute op c f =
      ⟨Event.openEv ::
        ((consumeLoop op c f (op.max_messages.toInt.toNat + 1) 0
            op.max_messages 0).trace ++
          (if ccTruthy op.commit_cadence then [Event.commitEv] else []) ++
          [Event.closeEv]),
       (consumeLoop op c f (op.max_messages.toInt.toNat + 1) 0
         op.max_messages 0).processed,
       none⟩ := by
  simp only [execute, h]
  simp

/-- `execute` when the callable raised: the exception propagates with no
drain commit and no close. -/
theorem execute_fail (op : Operator) (c : Nat → Int → List M)
    (f : M → Except E Unit) (e : E)
    (h : (consumeLoop op c f (op.max_messages.toInt.toNat + 1) 0
      op.max_messages 0).err = some e) :
    execute op c f =
      ⟨Event.openEv ::
        (consumeLoop op c f (op.max_messages.toInt.toNat + 1) 0
          op.max_messages 0).trace,
       (consumeLoop op c f (op.max_messages.toInt.toNat + 1) 0
         op.max_messages 0).processed,
       some e⟩ := by
  simp only [execute, h]
  simp

/-- The run's error is exactly the loop's error. -/
theorem execute_err (op : Operator) (c : Nat → Int → List M)
    (f : M → Except E Unit) :
    (execute op c f).err
      = (consumeLoop op c f (op.max_messages.toInt.toNat + 1) 0
          op.max_messages 0).err := by
  cases h : (consumeLoop op c f (op.max_messages.toInt.toNat + 1) 0
      op.max_messages 0).err with
  | none => rw [execute_ok op c f h]
  | some e => rw [execute_fail op c f e h]

/-- The polls of a run are the polls of its loop: neither opening, nor the
drain commit, nor closing requests messages. -/
theorem execute_pollRequests (op : Operator) (c : Nat → Int → List M)
    (f : M → Except E Unit) :
    pollRequests (execute op c f).trace
      = pollRequests (consumeLoop op c f (op.max_messages.toInt.toNat + 1) 0
          op.max_messages 0).trace := by
  cases h : (consumeLoop op c f (op.max_messages.toInt.toNat + 1) 0
      op.max_messages 0).err with
  | none =>
    rw [execute_ok op c f h]
    simp [pollRequests_ite_commit]
  | some e =>
    rw [execute_fail op c f e h]
    simp

/-- A run whose operator never commits (`commit_cadence` normalized to
`None`) produces no commit at all, however it terminates. -/
theorem execute_no_commit (op : Operator) (c : Nat → Int → List M)
    (f : M → Except E Unit) (hcc : op.commit_cadence = none) :
    commitCount (execute op c f).trace = 0 := by
  have hne : op.commit_cadence ≠ some "end_of_batch" := by rw [hcc]; simp
  have h0 := consumeLoop_no_commit op c f hne (op.max_messages.toInt.toNat + 1) 0
    op.max_messages 0
  cases h : (consumeLoop op c f (op.max_messages.toInt.toNat + 1) 0
      op.max_messages 0).err with
  | none =>
    rw [execute_ok op c f h]
    have hdrain : ccTruthy op.commit_cadence = false := by rw [hcc]; rfl
    simp [hdrain, h0]
  | some e =>
    rw [execute_fail op c f e h]
    simp [h0]

/-! ### Claim theorems -/

/-- The operator `__init__` produces for an unbounded run:
`max_messages=None` (so the sentinel `True`), default cadence
`"end_of_operator"`, default `max_batch_size=1000`. -/
def unboundedOp : Operator :=
  ⟨some "end_of_operator", PyNum.pybool true, 1000, true⟩

/-- A consumer whose log is inexhaustible: every poll returns one message. -/
def oneMessageEachPoll : Nat → Int → List Nat := fun _ _ => [0]

/-- The apply callable that always succeeds. -/
def alwaysOk : Nat → Except String Unit := fun _ => Except.ok ()

/-- Claim C1 — refuted by the code (code bug).  For an unbounded run
(`max_messages` unspecified) against a consumer that always has another
message, the loop exits *normally after its first non-empty batch*: no poll
ever returned an empty batch, every poll of the run was non-empty, yet the
run ended with `messages_processed = 1` while the consumer still had
messages.  `messages_left -= len(msgs)` turns the bool sentinel `True` into
the int `1 - len(msgs) ≤ 0`, so the count-based exit the spec excludes for
unbounded runs is exactly what fires. -/
theorem c1_unbounded_run_ends_without_empty_poll :
    initOperator ⟨some "end_of_operator", none, 1000⟩ = Except.ok unboundedOp ∧
    (execute unboundedOp oneMessageEachPoll alwaysOk).trace
        = [Event.openEv, Event.pollEv 1000 [0], Event.applyEv 0,
           Event.commitEv, Event.closeEv] ∧
    (execute unboundedOp oneMessageEachPoll alwaysOk).err = none ∧
    (execute unboundedOp oneMessageEachPoll alwaysOk).processed = 1 ∧
    nonEmptyPollCount (execute unboundedOp oneMessageEachPoll alwaysOk).trace
        = pollCount (execute unboundedOp oneMessageEachPoll alwaysOk).trace ∧
    oneMessageEachPoll 1 1000 ≠ [] := by
  refine ⟨rfl, ?_, rfl, rfl, rfl, by decide⟩
  rfl

/-- Claim C5 — confirmed: any string cadence outside
`VALID_COMMIT_CADENCE` fails construction with the error naming the
offending value and the allowed set, and `execute` never runs, so no
consumer connection is opened. -/
theorem c5_invalid_cadence_rejected (s : String) (mm : Option Int) (B : Int)
    (c : Nat → Int → List M) (f : M → Except E Unit)
    (hs : s ∉ VALID_COMMIT_CADENCE) :
    initOperator ⟨some s, mm, B⟩
        = Except.error (InitError.invalidCommitCadence (some s)
            VALID_COMMIT_CADENCE) ∧
      runOperator ⟨some s, mm, B⟩ c f
        = Except.error (InitError.invalidCommitCadence (some s)
            VALID_COMMIT_CADENCE) ∧
      Event.openEv ∉ runEvents (runOperator ⟨some s, mm, B⟩ c f) := by
  have hv : ccValid (some s) = false := by
    simp only [ccValid, decide_eq_false_iff_not]
    exact hs
  have h1 : initOperator ⟨some s, mm, B⟩
      = Except.error (InitError.invalidCommitCadence (some s)
          VALID_COMMIT_CADENCE) := by
    simp [initOperator, hv]
  refine ⟨h1, ?_, ?_⟩
  · simp [runOperator, h1]
  · simp [runOperator, h1, runEvents]

/-- Witness for C5 at the concrete cadence `"sometimes"`. -/
theorem c5_invalid_cadence_rejected_witness :
    "sometimes" ∉ VALID_COMMIT_CADENCE ∧
      initOperator ⟨some "sometimes", none, 1000⟩
        = Except.error (InitError.invalidCommitCadence (some "sometimes")
            VALID_COMMIT_CADENCE) ∧
      Event.openEv ∉ runEvents (runOperator ⟨some "sometimes", none, 1000⟩
          (fun _ _ => ([] : List Nat)) (fun _ => (Except.ok () : Except String Unit))) := by
  have h := c5_invalid_cadence_rejected "sometimes" none 1000
    (fun _ _ => ([] : List Nat)) (fun _ => (Except.ok () : Except String Unit))
    (by decide)
  exact ⟨by decide, h.1, h.2.2⟩

/-- Claim C7 — confirmed: a run configured with cadence `"never"` (which
`__init__` normalizes to `None`) performs no commit whatsoever — in the
loop or at drain — whatever the consumer returns and however the run
terminates. -/
theorem c7_never_cadence_no_commit (mm : Option Int) (B : Int)
    (c : Nat → Int → List M) (f : M → Except E Unit) :
    ∃ op : Operator, initOperator ⟨some "never", mm, B⟩ = Except.ok op ∧
      op.commit_cadence = none ∧
      commitCount (execute op c f).trace = 0 := by
  refine ⟨_, rfl, rfl, ?_⟩
  exact execute_no_commit _ c f rfl

/-- Claim C10 — confirmed: passing `commit_cadence=None` explicitly fails
construction with the same configuration error as an unrecognized string
(Python `None` is not a member of the validation set), even though the
string `"never"` is itself normalized to `None` after validation. -/
theorem c10_none_cadence_rejected (mm : Option Int) (B : Int) :
    initOperator ⟨none, mm, B⟩
        = Except.error (InitError.invalidCommitCadence none
            VALID_COMMIT_CADENCE) ∧
      ∃ op : Operator, initOperator ⟨some "never", mm, B⟩ = Except.ok op ∧
        op.commit_cadence = none := by
  exact ⟨rfl, ⟨_, rfl, rfl⟩⟩

/-- Claim C2 — confirmed: with a finite `max_messages = mm ≥ max_batch_size`
and a consumer whose polls always return exactly the requested number of
messages, the run requests `max_batch_size`-sized batches while at least
`max_batch_size` messages remain, then exactly the remainder, and terminates
normally with `messages_processed = mm`. -/
theorem c2_bounded_exact_consumer (op : Operator) (mm : Int)
    (c : Nat → Int → List M) (f : M → Except E Unit)
    (hmm : op.max_messages = PyNum.pyint mm)
    (hB : 1 ≤ op.max_batch_size) (hMB : op.max_batch_size ≤ mm)
    (hex : ∀ k : Nat, ∀ n : Int, 0 ≤ n → (c k n).length = n.toNat)
    (hf : ∀ m : M, f m = Except.ok ()) :
    pollRequests (execute op c f).trace = expectedRequests mm op.max_batch_size ∧
      (execute op c f).processed = mm ∧
      (execute op c f).err = none := by
  have hpos : 0 < mm := by omega
  have hfuel : mm.toNat < (PyNum.pyint mm).toInt.toNat + 1 := by
    rw [PyNum.toInt_pyint]
    omega
  obtain ⟨h1, h2, h3⟩ := consumeLoop_exact op c f hB hex hf
    ((PyNum.pyint mm).toInt.toNat + 1) 0 mm 0 hpos hfuel
  have herr : (consumeLoop op c f (op.max_messages.toInt.toNat + 1) 0
      op.max_messages 0).err = none := by
    rw [hmm]
    exact h3
  refine ⟨?_, ?_, ?_⟩
  · rw [execute_pollRequests, hmm]
    exact h1
  · have hp : (execute op c f).processed
        = (consumeLoop op c f (op.max_messages.toInt.toNat + 1) 0
            op.max_messages 0).processed := by
      rw [execute_ok op c f herr]
    rw [hp, hmm, h2]
    omega
  · rw [execute_err, hmm]
    exact h3

/-- Witness for C2: `max_messages=250`, `max_batch_size=100`, exact
consumer → requested batch sizes 100, 100, 50 and 250 processed. -/
theorem c2_bounded_exact_consumer_witness :
    pollRequests (execute (⟨some "end_of_batch", PyNum.pyint 250, 100, false⟩ :
          Operator)
        (fun _ n => List.replicate n.toNat 0)
        (fun _ => (Except.ok () : Except String Unit))).trace
        = [100, 100, 50] ∧
      (execute (⟨some "end_of_batch", PyNum.pyint 250, 100, false⟩ : Operator)
        (fun _ n => List.replicate n.toNat 0)
        (fun _ => (Except.ok () : Except String Unit))).processed = 250 := by
  obtain ⟨h1, h2, h3⟩ := c2_bounded_exact_consumer
    (⟨some "end_of_batch", PyNum.pyint 250, 100, false⟩ : Operator) 250
    (fun _ n => List.replicate n.toNat 0)
    (fun _ => (Except.ok () : Except String Unit))
    rfl (by decide) (by decide)
    (fun k n hn => by simp)
    (fun m => rfl)
  refine ⟨?_, h2⟩
  rw [h1]
  rw [expectedRequests, dif_pos ⟨by norm_num, by norm_num⟩, if_pos (by norm_num)]
  rw [expectedRequests, dif_pos ⟨by norm_num, by norm_num⟩, if_pos (by norm_num)]
  rw [expectedRequests, dif_pos ⟨by norm_num, by norm_num⟩, if_neg (by norm_num)]
  norm_num

/-- Claim C3 — confirmed: a normally terminating `"end_of_batch"` run
commits once per non-empty batch plus one drain commit, the drain commit
coming after the whole loop and right before close; empty polls contribute
no in-loop commit (the trace equation counts one commit per *non-empty*
poll only). -/
theorem c3_end_of_batch_commit_per_batch (op : Operator)
    (c : Nat → Int → List M) (f : M → Except E Unit)
    (hcc : op.commit_cadence = some "end_of_batch")
    (hok : (execute op c f).err = none) :
    commitCount (execute op c f).trace
        = nonEmptyPollCount (execute op c f).trace + 1 ∧
      ∃ pre : List (Event M),
        (execute op c f).trace = pre ++ [Event.commitEv, Event.closeEv] ∧
        commitCount pre = nonEmptyPollCount pre := by
  have herr : (consumeLoop op c f (op.max_messages.toInt.toNat + 1) 0
      op.max_messages 0).err = none := by
    rw [← execute_err]
    exact hok
  have hl := consumeLoop_commits_eob op c f hcc (op.max_messages.toInt.toNat + 1)
    0 op.max_messages 0 herr
  have hdrain : (if ccTruthy op.commit_cadence then [Event.commitEv]
      else ([] : List (Event M))) = [Event.commitEv] := by
    rw [hcc]
    rfl
  rw [execute_ok op c f herr, hdrain]
  refine ⟨?_, Event.openEv :: (consumeLoop op c f
      (op.max_messages.toInt.toNat + 1) 0 op.max_messages 0).trace, ?_, ?_⟩
  · simp [hl]
  · simp
  · simp [hl]

/-- Witness for C3: budget 3, batch size 2, an exhaustible source → two
non-empty batches, three commits total (two in-loop, one drain). -/
theorem c3_end_of_batch_commit_per_batch_witness :
    (execute (⟨some "end_of_batch", PyNum.pyint 3, 2, false⟩ : Operator)
        (fun k _ => if k = 0 then [10, 20] else [30])
        (fun _ => (Except.ok () : Except String Unit))).err = none ∧
      commitCount (execute (⟨some "end_of_batch", PyNum.pyint 3, 2, false⟩ :
            Operator)
          (fun k _ => if k = 0 then [10, 20] else [30])
          (fun _ => (Except.ok () : Except String Unit))).trace
        = nonEmptyPollCount (execute (⟨some "end_of_batch", PyNum.pyint 3, 2,
            false⟩ : Operator)
          (fun k _ => if k = 0 then [10, 20] else [30])
          (fun _ => (Except.ok () : Except String Unit))).trace + 1 := by
  have h := c3_end_of_batch_commit_per_batch
    (⟨some "end_of_batch", PyNum.pyint 3, 2, false⟩ : Operator)
    (fun k _ => if k = 0 then [10, 20] else [30])
    (fun _ => (Except.ok () : Except String Unit)) rfl (by decide)
  exact ⟨by decide, h.1⟩

/-- Claim C4 — confirmed: when the callable raises, the error propagates
out of the run (it is the run's result), `close()` is never reached, and
under `"end_of_batch"` cadence every poll except the failing one has been
committed — in particular neither the failing batch nor a drain commit
happens; moreover every poll of such a run was non-empty. -/
theorem c4_processing_failure_aborts (op : Operator) (c : Nat → Int → List M)
    (f : M → Except E Unit) (e : E)
    (hcc : op.commit_cadence = some "end_of_batch")
    (hfail : (execute op c f).err = some e) :
    Event.closeEv ∉ (execute op c f).trace ∧
      commitCount (execute op c f).trace + 1 = pollCount (execute op c f).trace ∧
      nonEmptyPollCount (execute op c f).trace
        = pollCount (execute op c f).trace := by
  have herr : (consumeLoop op c f (op.max_messages.toInt.toNat + 1) 0
      op.max_messages 0).err = some e := by
    rw [← execute_err]
    exact hfail
  obtain ⟨h1, h2⟩ := consumeLoop_commits_eob_fail op c f hcc
    (op.max_messages.toInt.toNat + 1) 0 op.max_messages 0 e herr
  have hnc := consumeLoop_no_close op c f (op.max_messages.toInt.toNat + 1) 0
    op.max_messages 0
  rw [execute_fail op c f e herr]
  refine ⟨?_, ?_, ?_⟩
  · simp [hnc]
  · simp [h1]
  · simp [h2]

/-- Witness for C4: a 10-message batch whose 5th message makes the callable
raise → the error is the run's outcome, no close, zero commits against one
poll. -/
theorem c4_processing_failure_aborts_witness :
    (execute (⟨some "end_of_batch", PyNum.pyint 10, 10, false⟩ : Operator)
        (fun _ _ => [1, 2, 3, 4, 5, 6, 7, 8, 9, 10])
        (fun m => if m = 5 then Except.error "boom" else Except.ok ())).err
        = some "boom" ∧
      Event.closeEv ∉ (execute (⟨some "end_of_batch", PyNum.pyint 10, 10,
            false⟩ : Operator)
          (fun _ _ => [1, 2, 3, 4, 5, 6, 7, 8, 9, 10])
          (fun m => if m = 5 then Except.error "boom" else Except.ok ())).trace ∧
      commitCount (execute (⟨some "end_of_batch", PyNum.pyint 10, 10, false⟩ :
            Operator)
          (fun _ _ => [1, 2, 3, 4, 5, 6, 7, 8, 9, 10])
          (fun m => if m = 5 then Except.error "boom" else Except.ok ())).trace + 1
        = pollCount (execute (⟨some "end_of_batch", PyNum.pyint 10, 10, false⟩ :
            Operator)
          (fun _ _ => [1, 2, 3, 4, 5, 6, 7, 8, 9, 10])
          (fun m => if m = 5 then Except.error "boom" else Except.ok ())).trace := by
  have h := c4_processing_failure_aborts
    (⟨some "end_of_batch", PyNum.pyint 10, 10, false⟩ : Operator)
    (fun _ _ => [1, 2, 3, 4, 5, 6, 7, 8, 9, 10])
    (fun m => if m = 5 then Except.error "boom" else Except.ok ())
    "boom" rfl (by decide)
  exact ⟨by decide, h.1, h.2.1⟩

/-- Claim C6 — confirmed: a normally terminating `"end_of_operator"` run
commits exactly once, and that single commit sits after the whole loop
trace and immediately before close. -/
theorem c6_end_of_operator_one_commit (op : Operator) (c : Nat → Int → List M)
    (f : M → Except E Unit)
    (hcc : op.commit_cadence = some "end_of_operator")
    (hok : (execute op c f).err = none) :
    commitCount (execute op c f).trace = 1 ∧
      ∃ pre : List (Event M),
        (execute op c f).trace = pre ++ [Event.commitEv, Event.closeEv] ∧
        commitCount pre = 0 := by
  have herr : (consumeLoop op c f (op.max_messages.toInt.toNat + 1) 0
      op.max_messages 0).err = none := by
    rw [← execute_err]
    exact hok
  have h0 := consumeLoop_no_commit op c f (by rw [hcc]; simp)
    (op.max_messages.toInt.toNat + 1) 0 op.max_messages 0
  have hdrain : (if ccTruthy op.commit_cadence then [Event.commitEv]
      else ([] : List (Event M))) = [Event.commitEv] := by
    rw [hcc]
    rfl
  rw [execute_ok op c f herr, hdrain]
  refine ⟨?_, Event.openEv :: (consumeLoop op c f
      (op.max_messages.toInt.toNat + 1) 0 op.max_messages 0).trace, ?_, ?_⟩
  · simp [h0]
  · simp
  · simp [h0]

/-- Witness for C6: budget 2, one non-empty batch, normal end → exactly one
commit. -/
theorem c6_end_of_operator_one_commit_witness :
    (execute (⟨some "end_of_operator", PyNum.pyint 2, 5, false⟩ : Operator)
        (fun k _ => if k = 0 then [1, 2] else [])
        (fun _ => (Except.ok () : Except String Unit))).err = none ∧
      commitCount (execute (⟨some "end_of_operator", PyNum.pyint 2, 5, false⟩ :
            Operator)
          (fun k _ => if k = 0 then [1, 2] else [])
          (fun _ => (Except.ok () : Except String Unit))).trace = 1 := by
  have h := c6_end_of_operator_one_commit
    (⟨some "end_of_operator", PyNum.pyint 2, 5, false⟩ : Operator)
    (fun k _ => if k = 0 then [1, 2] else [])
    (fun _ => (Except.ok () : Except String Unit)) rfl (by decide)
  exact ⟨by decide, h.1⟩

/-- A trace that starts with a poll has that poll's request first. -/
theorem pollRequests_head (r : Int) (ms : List M) (t : List (Event M)) :
    ∃ tailReq : List Int, pollRequests (Event.pollEv r ms :: t) = r :: tailReq :=
  ⟨pollRequests t, rfl⟩

/-- The first poll of a bounded run with positive budget requests exactly
`min(max_batch_size, budget)`, whatever the consumer then returns. -/
theorem execute_first_request (op : Operator) (mm : Int)
    (c : Nat → Int → List M) (f : M → Except E Unit)
    (hmm : op.max_messages = PyNum.pyint mm) (hpos : 0 < mm) :
    ∃ tailReq : List Int,
      pollRequests (execute op c f).trace
        = (if op.max_batch_size < mm then op.max_batch_size else mm) :: tailReq := by
  rw [execute_pollRequests, hmm]
  have hg : 0 < (PyNum.pyint mm).toInt := by
    rw [PyNum.toInt_pyint]
    exact hpos
  have hbs : requestSize (PyNum.pyint mm) op.max_batch_size
      = if op.max_batch_size < mm then op.max_batch_size else mm := by
    simp [requestSize, PyNum.isBool]
  by_cases hne : c 0 (requestSize (PyNum.pyint mm) op.max_batch_size) = []
  · rw [consumeLoop_empty op c f ((PyNum.pyint mm).toInt.toNat) 0
      (PyNum.pyint mm) 0 hg hne, hbs]
    exact pollRequests_head _ _ _
  · cases hap : (applyBatch f
        (c 0 (requestSize (PyNum.pyint mm) op.max_batch_size))).2 with
    | some e =>
      rw [consumeLoop_fail op c f ((PyNum.pyint mm).toInt.toNat) 0
        (PyNum.pyint mm) 0 e hg hne hap, hbs]
      exact pollRequests_head _ _ _
    | none =>
      rw [consumeLoop_ok op c f ((PyNum.pyint mm).toInt.toNat) 0
        (PyNum.pyint mm) 0 hg hne hap, hbs]
      exact pollRequests_head _ _ _

/-- Every poll of a bounded run requests at most `max_batch_size` and at
most the configured budget. -/
theorem execute_requests_le (op : Operator) (mm : Int)
    (c : Nat → Int → List M) (f : M → Except E Unit)
    (hmm : op.max_messages = PyNum.pyint mm) :
    ∀ r ∈ pollRequests (execute op c f).trace,
      r ≤ op.max_batch_size ∧ r ≤ mm := by
  intro r hr
  rw [execute_pollRequests, hmm] at hr
  exact consumeLoop_requests_le op c f ((PyNum.pyint mm).toInt.toNat + 1) 0
    mm 0 r hr

/-- Claim C8 — confirmed: a finite `max_messages` smaller than
`max_batch_size` is a correctable inconsistency, not an error — the
operator is constructed (with the warning flag logged), every poll requests
at most the smaller of batch size and budget, and the first poll requests
exactly `max_messages`. -/
theorem c8_small_budget_first_poll (s : String) (mmv B : Int)
    (c : Nat → Int → List M) (f : M → Except E Unit)
    (hs : s ∈ VALID_COMMIT_CADENCE) (h1 : 1 ≤ mmv) (h2 : mmv < B) :
    ∃ op : Operator, initOperator ⟨some s, some mmv, B⟩ = Except.ok op ∧
      op.max_messages = PyNum.pyint mmv ∧
      op.warned = true ∧
      (∃ tailReq : List Int,
        pollRequests (execute op c f).trace = mmv :: tailReq) ∧
      ∀ r ∈ pollRequests (execute op c f).trace, r ≤ B ∧ r ≤ mmv := by
  have hv : ccValid (some s) = true := by
    simp only [ccValid, decide_eq_true_eq]
    exact hs
  have hmm0 : ¬ mmv = 0 := by omega
  refine ⟨⟨if some s = some "never" then none else some s, PyNum.pyint mmv, B,
    (PyNum.pyint mmv).isTruthy && decide ((PyNum.pyint mmv).toInt < B)⟩,
    ?_, rfl, ?_, ?_, ?_⟩
  · simp [initOperator, hv, hmm0]
  · simp only [PyNum.isTruthy, PyNum.toInt_pyint]
    simp [hmm0]
    omega
  · obtain ⟨t, ht⟩ := execute_first_request
      (⟨if some s = some "never" then none else some s, PyNum.pyint mmv, B,
        (PyNum.pyint mmv).isTruthy && decide ((PyNum.pyint mmv).toInt < B)⟩ :
          Operator) mmv c f rfl (by omega)
    refine ⟨t, ?_⟩
    rw [ht]
    have hproj : (⟨if some s = some "never" then none else some s,
        PyNum.pyint mmv, B,
        (PyNum.pyint mmv).isTruthy && decide ((PyNum.pyint mmv).toInt < B)⟩ :
          Operator).max_batch_size = B := rfl
    rw [hproj, if_neg (by omega)]
  · intro r hr
    exact execute_requests_le
      (⟨if some s = some "never" then none else some s, PyNum.pyint mmv, B,
        (PyNum.pyint mmv).isTruthy && decide ((PyNum.pyint mmv).toInt < B)⟩ :
          Operator) mmv c f rfl r hr

/-- Witness for C8: cadence `"end_of_operator"`, `max_messages=5`,
`max_batch_size=100`. -/
theorem c8_small_budget_first_poll_witness :
    "end_of_operator" ∈ VALID_COMMIT_CADENCE ∧ (1 : Int) ≤ 5 ∧ (5 : Int) < 100 ∧
      ∃ op : Operator, initOperator ⟨some "end_of_operator", some 5, 100⟩
          = Except.ok op ∧
        op.max_messages = PyNum.pyint 5 ∧
        op.warned = true ∧
        (∃ tailReq : List Int,
          pollRequests (execute op
              (fun _ n => List.replicate n.toNat (0 : Nat))
              (fun _ => (Except.ok () : Except String Unit))).trace
            = 5 :: tailReq) ∧
        ∀ r ∈ pollRequests (execute op
            (fun _ n => List.replicate n.toNat (0 : Nat))
            (fun _ => (Except.ok () : Except String Unit))).trace,
          r ≤ 100 ∧ r ≤ 5 := by
  refine ⟨by decide, by decide, by decide, ?_⟩
  exact c8_small_budget_first_poll "end_of_operator" 5 100
    (fun _ n => List.replicate n.toNat (0 : Nat))
    (fun _ => (Except.ok () : Except String Unit))
    (by decide) (by decide) (by decide)

/-- An unbounded-sentinel run against a consumer whose first batch is
non-empty and a callable that never raises: the first (and, by the sentinel
arithmetic, only) poll requests a full `max_batch_size`, every returned
message is applied, and all of them are counted. -/
theorem execute_unbounded_first_batch (op : Operator) (c : Nat → Int → List M)
    (f : M → Except E Unit)
    (hmm : op.max_messages = PyNum.pybool true)
    (hne : c 0 op.max_batch_size ≠ [])
    (hf : ∀ m : M, f m = Except.ok ()) :
    (∃ tailReq : List Int,
        pollRequests (execute op c f).trace = op.max_batch_size :: tailReq) ∧
      (∀ m ∈ c 0 op.max_batch_size, Event.applyEv m ∈ (execute op c f).trace) ∧
      (execute op c f).processed = ((c 0 op.max_batch_size).length : Int) ∧
      (execute op c f).err = none := by
  have hg : 0 < (PyNum.pybool true).toInt := by simp
  have hbs : requestSize (PyNum.pybool true) op.max_batch_size
      = op.max_batch_size := rfl
  have hne' : c 0 (requestSize (PyNum.pybool true) op.max_batch_size) ≠ [] := by
    rw [hbs]
    exact hne
  have hab := applyBatch_all_ok f
    (c 0 (requestSize (PyNum.pybool true) op.max_batch_size)) (fun m _ => hf m)
  have hap : (applyBatch f
      (c 0 (requestSize (PyNum.pybool true) op.max_batch_size))).2 = none := by
    rw [hab]
  have hfst : (applyBatch f
      (c 0 (requestSize (PyNum.pybool true) op.max_batch_size))).1
      = (c 0 (requestSize (PyNum.pybool true) op.max_batch_size)).map
          Event.applyEv := by
    rw [hab]
  have hlen : 0 < (c 0 (requestSize (PyNum.pybool true) op.max_batch_size)).length :=
    List.length_pos.mpr hne'
  have hstep := consumeLoop_ok op c f (PyNum.pybool true).toInt.toNat 0
    (PyNum.pybool true) 0 hg hne' hap
  have hrest : consumeLoop op c f (PyNum.pybool true).toInt.toNat (0 + 1)
      (PyNum.pyint ((PyNum.pybool true).toInt
        - (c 0 (requestSize (PyNum.pybool true) op.max_batch_size)).length))
      (0 + (c 0 (requestSize (PyNum.pybool true) op.max_batch_size)).length)
      = ⟨[], 0 + (c 0 (requestSize (PyNum.pybool true) op.max_batch_size)).length,
          none⟩ := by
    apply consumeLoop_notpos
    rw [PyNum.toInt_pyint]
    simp only [PyNum.toInt_pybool, if_pos rfl]
    omega
  rw [hrest] at hstep
  have herr : (consumeLoop op c f (op.max_messages.toInt.toNat + 1) 0
      op.max_messages 0).err = none := by
    rw [hmm, hstep]
  have htrace : (execute op c f).trace
      = Event.openEv ::
          ((Event.pollEv op.max_batch_size (c 0 op.max_batch_size) ::
            ((c 0 op.max_batch_size).map Event.applyEv ++
              (if op.commit_cadence = some "end_of_batch"
                then [Event.commitEv] else []))) ++
            (if ccTruthy op.commit_cadence then [Event.commitEv] else []) ++
            [Event.closeEv]) := by
    have hfst2 : (applyBatch f (c 0 op.max_batch_size)).1
        = (c 0 op.max_batch_size).map Event.applyEv := hfst
    rw [execute_ok op c f herr]
    simp only [hmm, hstep, hbs, hfst2, List.append_nil]
  refine ⟨⟨[], ?_⟩, ?_, ?_, ?_⟩
  · rw [htrace]
    simp [pollRequests_ite_commit, pollRequests_map_applyEv]
  · intro m hm
    rw [htrace]
    simp [hm]
  · have hp : (execute op c f).processed
        = (consumeLoop op c f (op.max_messages.toInt.toNat + 1) 0
            op.max_messages 0).processed := by
      rw [execute_ok op c f herr]
    rw [hp, hmm, hstep, hbs]
    simp
  · rw [execute_err, hmm, hstep]

/-- Claim C9 — confirmed: `max_messages=0` is coerced by
`max_messages or True` to the unbounded sentinel `True` at construction, so
the run does not end immediately with nothing processed: the first poll
still requests a full `max_batch_size`, and every message of a non-empty
first batch is applied and counted. -/
theorem c9_zero_budget_coerced_unbounded (s : String) (B : Int)
    (c : Nat → Int → List M) (f : M → Except E Unit)
    (hs : s ∈ VALID_COMMIT_CADENCE) (hne : c 0 B ≠ [])
    (hf : ∀ m : M, f m = Except.ok ()) :
    ∃ op : Operator, initOperator ⟨some s, some 0, B⟩ = Except.ok op ∧
      op.max_messages = PyNum.pybool true ∧
      (∃ tailReq : List Int,
        pollRequests (execute op c f).trace = B :: tailReq) ∧
      (∀ m ∈ c 0 B, Event.applyEv m ∈ (execute op c f).trace) ∧
      (execute op c f).processed = ((c 0 B).length : Int) ∧
      0 < (execute op c f).processed := by
  have hv : ccValid (some s) = true := by
    simp only [ccValid, decide_eq_true_eq]
    exact hs
  refine ⟨⟨if some s = some "never" then none else some s, PyNum.pybool true, B,
    (PyNum.pybool true).isTruthy && decide ((PyNum.pybool true).toInt < B)⟩,
    ?_, rfl, ?_, ?_, ?_, ?_⟩
  case _ => simp [initOperator, hv]
  all_goals {
    obtain ⟨h1, h2, h3, h4⟩ := execute_unbounded_first_batch
      (⟨if some s = some "never" then none else some s, PyNum.pybool true, B,
        (PyNum.pybool true).isTruthy && decide ((PyNum.pybool true).toInt < B)⟩ :
          Operator) c f rfl hne hf
    have h3' : (execute (⟨if some s = some "never" then none else some s,
        PyNum.pybool true, B,
        (PyNum.pybool true).isTruthy && decide ((PyNum.pybool true).toInt < B)⟩ :
          Operator) c f).processed = ((c 0 B).length : Int) := h3
    first
    | exact h1
    | exact h2
    | exact h3'
    | { rw [h3']
        have := List.length_pos.mpr hne
        omega }
  }

/-- Witness for C9: cadence `"end_of_operator"`, `max_messages=0`,
`max_batch_size=3`, a source holding one message. -/
theorem c9_zero_budget_coerced_unbounded_witness :
    "end_of_operator" ∈ VALID_COMMIT_CADENCE ∧
      (fun k (_ : Int) => if k = 0 then [7] else ([] : List Nat)) 0 3 ≠ [] ∧
      ∃ op : Operator,
        initOperator ⟨some "end_of_operator", some 0, 3⟩ = Except.ok op ∧
        op.max_messages = PyNum.pybool true ∧
        (∃ tailReq : List Int,
          pollRequests (execute op
              (fun k (_ : Int) => if k = 0 then [7] else ([] : List Nat))
              (fun _ => (Except.ok () : Except String Unit))).trace
            = 3 :: tailReq) ∧
        (∀ m ∈ (fun k (_ : Int) => if k = 0 then [7] else ([] : List Nat)) 0 3,
          Event.applyEv m ∈ (execute op
              (fun k (_ : Int) => if k = 0 then [7] else ([] : List Nat))
              (fun _ => (Except.ok () : Except String Unit))).trace) ∧
        (execute op
            (fun k (_ : Int) => if k = 0 then [7] else ([] : List Nat))
            (fun _ => (Except.ok () : Except String Unit))).processed
          = (((fun k (_ : Int) => if k = 0 then [7] else ([] : List Nat)) 0 3).length :
              Int) ∧
        0 < (execute op
            (fun k (_ : Int) => if k = 0 then [7] else ([] : List Nat))
            (fun _ => (Except.ok () : Except String Unit))).processed := by
  refine ⟨by decide, by decide, ?_⟩
  exact c9_zero_budget_coerced_unbounded "end_of_operator" 3
    (fun k (_ : Int) => if k = 0 then [7] else ([] : List Nat))
    (fun _ => (Except.ok () : Except String Unit))
    (by decide) (by decide) (fun m => rfl)

end ConsumeFromTopic
